import Mathlib

/-!
Shallow embedding of the time-budgeted search engine of LightAutoML:
* `get_common_concat` / `concatenate` from `lightautoml/dataset/utils.py`,
* `LinearL1CD.fit_predict_single_fold` from `lightautoml/ml_algo/linear_sklearn.py`,
* `OptunaTuner.fit` and its `update_trial_time` callback from
  `lightautoml/ml_algo/tuning/optuna.py`.
Machine reals (numpy floats, wall-clock seconds) are modelled as `ℚ`;
Python exceptions are modelled with `Except`.
-/

deriving instance DecidableEq for Except

/-! ## Dataset concat dispatch (`lightautoml/dataset/utils.py`) -/

/-- The dataset classes that can appear in `dataset_types`.  The source
dispatches on `type(x)`; three distinct kinds are enough to express
"single type", "exactly numpy + sparse" and "any other mix". -/
inductive DKind where
  | numpy
  | csrSparse
  | pandas
deriving DecidableEq

/-- A dataset: its class plus opaque content. -/
structure DatasetR where
  kind : DKind
  payload : ℕ
deriving DecidableEq

/-- The concat function of each dataset class (`klass.concat`). -/
inductive ConcatFn where
  | numpyConcat
  | csrConcat
  | pandasConcat
deriving DecidableEq

def concatOf : DKind → ConcatFn
  | .numpy => .numpyConcat
  | .csrSparse => .csrConcat
  | .pandas => .pandasConcat

/-- `get_common_concat` (utils.py:41-64): build the set of dataset types;
a single type yields that type's concat; the set `{NumpyDataset,
CSRSparseDataset}` yields the sparse concat; anything else raises
`TypeError` (modelled as `Except.error ()`). -/
def get_common_concat (datasets : List DatasetR) : Except Unit ConcatFn :=
  match (datasets.map (fun d => d.kind)).dedup with
  | [t] => .ok (concatOf t)
  | ts =>
    if ts.toFinset = ({DKind.numpy, DKind.csrSparse} : Finset DKind) then
      .ok ConcatFn.csrConcat
    else
      .error ()

/-- `concatenate` (utils.py:68-81): pick the common concat function and
apply it; on `TypeError` from `get_common_concat` no concat is applied. -/
def concatenate (datasets : List DatasetR) :
    Except Unit (ConcatFn × List DatasetR) :=
  match get_common_concat datasets with
  | .error e => .error e
  | .ok conc => .ok (conc, datasets)

/-! ## Regularization path (`LinearL1CD.fit_predict_single_fold`,
`lightautoml/ml_algo/linear_sklearn.py:161-252`) -/

namespace LinearL1CD

/-- An sklearn estimator instance as the loop sees it: its two tunable
hyperparameters and its fitted coefficients (`coef_`; `none` before the
first `fit`, which with `warm_start=True` makes the fit start cold). -/
structure SkModel where
  l1_ratio : ℚ
  c : ℚ
  coef : Option (List ℚ)
deriving DecidableEq

/-- The external capabilities the fold loop consumes: the solver's `fit`
(which reads the model's hyperparameters and its current `coef_` as warm
start, and may raise a numerical error), the composite
`metric(valid_target, predict(model, valid.data), valid_weight)` scoring,
whether `set_params(l1_ratio=...)` is accepted (sklearn raises
`ValueError` for estimators without that parameter, which the source
catches and ignores), and the timer's `time_limit_exceeded()` answers,
indexed by how many times it has been consulted. -/
structure SolverEnv where
  fitF : SkModel → Except Unit (List ℚ)
  scoreF : SkModel → ℚ
  supportsL1 : Bool
  timer : ℕ → Bool

/-- `score >= c_best_score` where the initial best is `-np.inf`
(modelled as `none`). -/
def optGe (s : ℚ) (b : Option ℚ) : Bool :=
  match b with
  | none => true
  | some x => decide (x ≤ s)

/-- `c_best_score >= best_score` where either side may still be
`-np.inf` (`none`). -/
def optGeOpt (a b : Option ℚ) : Bool :=
  match a, b with
  | none, none => true
  | some _, none => true
  | none, some _ => false
  | some x, some y => decide (y ≤ x)

/-- State threaded through the inner (`for n, c in enumerate(cs)`) loop:
the mutable estimator, the per-outer-value best (`c_best_score`,
`c_best_model`), the no-improvement counter `es`, plus instrumentation
that the source makes observable: `warnings.warn` emissions, `model.fit`
invocations and their hyperparameter configuration at call time, and
timer consultations. -/
structure CDState where
  model : SkModel
  cBestScore : Option ℚ
  cBestModel : Option SkModel
  es : ℕ
  warnCount : ℕ
  fitCalls : ℕ
  timerCalls : ℕ
  fitTrace : List (ℚ × ℚ)
deriving DecidableEq

/-- The `score >= c_best_score` update (linear_sklearn.py:220-226):
non-strict comparison, so a tie replaces the best with the
later-evaluated cell and resets the no-improvement counter. -/
def selUpdate (score : ℚ) (m : SkModel) (st : CDState) : CDState :=
  if optGe score st.cBestScore then
    { st with cBestScore := some score, cBestModel := some m, es := 0 }
  else
    { st with es := st.es + 1 }

/-- The inner loop over `cs` (linear_sklearn.py:198-239), carried with
the running index `n` and `csLen = len(cs)`.  Per cell: `set_params`
with the penalty strength (`C` or `alpha`; both write the same field),
`model.fit` — NOT wrapped in any try/except, so a solver error
propagates out of the whole fold —, the all-zero-coefficient check
(warn on the last cell and fall through to scoring, else `continue`),
scoring and best update, then the three break checks: early stopping,
`self.timer.time_limit_exceeded()`, and all-coefficients-nonzero. -/
def innerLoop (env : SolverEnv) (early_stopping : ℕ) (csLen : ℕ) :
    List ℚ → ℕ → CDState → Except Unit CDState
  | [], _, st => .ok st
  | c :: rest, n, st =>
    let m1 : SkModel := { st.model with c := c }
    match env.fitF m1 with
    | .error e => .error e
    | .ok coefs =>
      let m2 : SkModel := { m1 with coef := some coefs }
      let st1 : CDState :=
        { st with model := m2, fitCalls := st.fitCalls + 1,
                  fitTrace := st.fitTrace ++ [(m1.l1_ratio, m1.c)] }
      if coefs.all (fun x => x == 0) && !(n == csLen - 1) then
        innerLoop env early_stopping csLen rest (n + 1) st1
      else
        let st2 : CDState :=
          if coefs.all (fun x => x == 0) then
            { st1 with warnCount := st1.warnCount + 1 }
          else st1
        let st3 : CDState := selUpdate (env.scoreF m2) m2 st2
        if early_stopping ≤ st3.es then .ok st3
        else
          let exceeded := env.timer st3.timerCalls
          let st4 : CDState := { st3 with timerCalls := st3.timerCalls + 1 }
          if exceeded then .ok st4
          else if coefs.all (fun x => !(x == 0)) then .ok st4
          else innerLoop env early_stopping csLen rest (n + 1) st4

/-- State across outer (`l1_ratio`) iterations: the global best and the
instrumentation counters. -/
structure PathState where
  bestScore : Option ℚ
  bestModel : Option SkModel
  warnCount : ℕ
  fitCalls : ℕ
  timerCalls : ℕ
  fitTrace : List (ℚ × ℚ)
deriving DecidableEq

/-- One outer iteration plus the loop (linear_sklearn.py:184-248).
`model.set_params(l1_ratio=l1_ratio)` is applied to the current
estimator object (or its `ValueError` is swallowed when the estimator
has no such parameter), and then the very next line rebinds
`model = deepcopy(_model)` — a fresh copy of the base instance with the
base `l1_ratio` and no fitted coefficients — so the configured outer
value is discarded before any fit and warm starts never cross an outer
boundary.  After the inner loop: `c_best_score >= best_score` global
best update, then one timer check that may break the outer loop. -/
def outerLoop (env : SolverEnv) (baseModel : SkModel) (cs : List ℚ)
    (early_stopping : ℕ) : List ℚ → PathState → Except Unit PathState
  | [], st => .ok st
  | _l1_ratio :: rest, st =>
    let ist : CDState :=
      { model := baseModel, cBestScore := none, cBestModel := none,
        es := 0, warnCount := st.warnCount, fitCalls := st.fitCalls,
        timerCalls := st.timerCalls, fitTrace := st.fitTrace }
    match innerLoop env early_stopping cs.length cs 0 ist with
    | .error e => .error e
    | .ok ist2 =>
      let st1 : PathState :=
        { st with warnCount := ist2.warnCount, fitCalls := ist2.fitCalls,
                  timerCalls := ist2.timerCalls, fitTrace := ist2.fitTrace }
      let st2 : PathState :=
        if optGeOpt ist2.cBestScore st1.bestScore then
          { st1 with bestScore := ist2.cBestScore,
                     bestModel := ist2.cBestModel }
        else st1
      let exceeded := env.timer st2.timerCalls
      let st3 : PathState := { st2 with timerCalls := st2.timerCalls + 1 }
      if exceeded then .ok st3
      else outerLoop env baseModel cs early_stopping rest st3

/-- `fit_predict_single_fold` (linear_sklearn.py:161-252): iterate over
`sorted(l1_ratios, reverse=True)`, returning the global best model and
the instrumented trace.  The base estimator `_model` comes from
`_infer_params`, which never receives an `l1_ratio` from the grid (the
`l1_ratios` entry is popped from the params before construction), so
`baseModel` carries the estimator class's own default. -/
def fit_predict_single_fold (env : SolverEnv) (baseModel : SkModel)
    (cs l1_ratios : List ℚ) (early_stopping : ℕ) :
    Except Unit PathState :=
  outerLoop env baseModel cs early_stopping
    (l1_ratios.insertionSort (fun a b => b ≤ a))
    { bestScore := none, bestModel := none, warnCount := 0,
      fitCalls := 0, timerCalls := 0, fitTrace := [] }

end LinearL1CD

/-! ## Adaptive trial scheduler (`OptunaTuner`,
`lightautoml/ml_algo/tuning/optuna.py`) -/

namespace OptunaTuner

/-- One completed optuna trial: its index, the objective value and its
wall-clock duration. -/
structure TrialRec where
  idx : ℕ
  score : ℚ
  duration : ℚ
deriving DecidableEq

/-- The data the optimize loop consumes: the bounds the source passes to
`study.optimize` (`n_trials=self.n_trials`, `timeout=self.timeout`,
optuna.py:166-174) and, for trial `k`, its objective value and
duration. -/
structure TunerCfg where
  n_trials : ℕ
  timeout : ℚ
  durations : ℕ → ℚ
  scores : ℕ → ℚ

/-- `study.trials_dataframe()['duration'].mean()`. -/
def listMean (l : List ℚ) : ℚ := l.sum / l.length

/-- State of one `study.optimize` run: elapsed wall-clock time, the
completed trials, `ml_algo.mean_trial_time`, `self.estimated_n_trials`
(an int in the source until the first callback, then the result of a
float floor division), and the value `estimated_n_trials` holds after
each completed trial, oldest first. -/
structure OptState where
  elapsed : ℚ
  records : List TrialRec
  meanTrialTime : Option ℚ
  estimatedNTrials : ℤ
  estHistory : List ℤ
deriving DecidableEq

/-- The `update_trial_time` callback (optuna.py:146-156), run after
every completed trial: recompute the mean duration over ALL trials so
far, then `self.estimated_n_trials = min(self.n_trials,
self.timeout // ml_algo.mean_trial_time)` — a floor division of the
configured total timeout, not of the time still remaining. -/
def update_trial_time (cfg : TunerCfg) (st : OptState) : OptState :=
  let m := listMean (st.records.map (fun r => r.duration))
  let est : ℤ := min (cfg.n_trials : ℤ) ⌊cfg.timeout / m⌋
  { st with meanTrialTime := some m, estimatedNTrials := est,
            estHistory := st.estHistory ++ [est] }

/-- The `study.optimize(func, n_trials, timeout, callbacks)` loop as
configured at optuna.py:166-174: run up to `n_trials` trials (the fuel),
breaking before a trial when the elapsed time strictly exceeds
`timeout`; after each trial run the `update_trial_time` callback.
The recomputed `estimated_n_trials` is never passed back to the
optimizer as a bound — only `n_trials` and `timeout` stop the loop. -/
def optimizeLoop (cfg : TunerCfg) : ℕ → OptState → OptState
  | 0, st => st
  | fuel + 1, st =>
    if cfg.timeout < st.elapsed then st
    else
      let k := st.records.length
      let tr : TrialRec := ⟨k, cfg.scores k, cfg.durations k⟩
      let st1 : OptState :=
        { st with elapsed := st.elapsed + tr.duration,
                  records := st.records ++ [tr] }
      optimizeLoop cfg fuel (update_trial_time cfg st1)

/-- A whole `study.optimize` call: fresh study, zero elapsed time,
`estimated_n_trials` still holding its `__init__` value `n_trials`
(optuna.py:107). -/
def runOptimize (cfg : TunerCfg) : OptState :=
  optimizeLoop cfg cfg.n_trials
    { elapsed := 0, records := [], meanTrialTime := none,
      estimatedNTrials := (cfg.n_trials : ℤ), estHistory := [] }

/-- `study.best_params` for direction `maximize`: the trial with the
maximal value; Python's `max` keeps the first maximum, so ties go to
the earliest trial.  With zero completed trials optuna raises
`ValueError` (`none` here). -/
def bestTrial (records : List TrialRec) : Option TrialRec :=
  records.foldl
    (fun acc r =>
      match acc with
      | none => some r
      | some b => if b.score < r.score then some r else acc)
    none

/-- Python exceptions distinguished by `OptunaTuner.fit`: the sole
`except optuna.exceptions.OptunaError` handler (optuna.py:187), the
`ValueError` that `study.best_params` raises with no completed trial
(not an `OptunaError`, hence uncaught), and the `assert` at
optuna.py:131. -/
inductive PyErr where
  | optunaError
  | valueError
  | assertionError
deriving DecidableEq

/-- The iterator argument's runtime type, for the
`type(train_valid_iterator) != HoldoutIterator` test at optuna.py:141. -/
inductive IterKind where
  | holdout
  | cv
deriving DecidableEq

/-- The tuned algorithm as `fit` reads and writes it. -/
structure MLAlgoR where
  is_fitted : Bool
  params : Option ℕ
  mean_trial_time : Option ℚ
deriving DecidableEq

/-- What `fit` hands back: `result = none` models the `(None, None)`
return, `result = some (algo, preds)` the `(ml_algo, preds_ds)` return
(predictions abstracted to the winning trial index); `callerAlgo` is the
object the caller passed in, as it stands when `fit` returns. -/
structure TunerFitOut where
  result : Option (MLAlgoR × ℕ)
  callerAlgo : MLAlgoR
deriving DecidableEq

/-- `OptunaTuner.fit` (optuna.py:115-188).  Control flow, in source
order: the `assert not ml_algo.is_fitted`; the timeout update
`self.timeout = min(self.timeout, max(estimate_tuner_time(...), 1))`;
`ml_algo = deepcopy(ml_algo)` at optuna.py:138 rebinds the local name to
the copy, so every later write (`ml_algo.mean_trial_time` in the
callback at line 155, `ml_algo.params` at line 178, the refit) hits the
copy and the caller's object is never written again; the holdout
conversion flag; then the `try` block running `study.optimize`
(`optunaRaises` abstracts an `optuna.exceptions.OptunaError` escaping
it, the only exception the handler catches), `study.best_params`, the
refit, and the `flg_new_iterator` early `(None, None)` return that fires
even when trials succeeded. -/
def fit (timeout0 : ℚ) (n_trials : ℕ) (fit_on_holdout : Bool)
    (durations scores : ℕ → ℚ) (optunaRaises : Bool)
    (algo : MLAlgoR) (estTunerTime : ℚ) (iter : IterKind) :
    Except PyErr TunerFitOut :=
  if algo.is_fitted then .error .assertionError
  else
    let estimated_tuning_time := max estTunerTime 1
    let timeout := min timeout0 estimated_tuning_time
    let callerAlgo := algo
    let tunedAlgo := algo
    let flg_new_iterator := fit_on_holdout && !(iter == IterKind.holdout)
    if optunaRaises then .ok { result := none, callerAlgo := callerAlgo }
    else
      let cfg : TunerCfg :=
        { n_trials := n_trials, timeout := timeout,
          durations := durations, scores := scores }
      let st := runOptimize cfg
      match bestTrial st.records with
      | none => .error .valueError
      | some b =>
        let tunedAlgo2 : MLAlgoR :=
          { tunedAlgo with params := some b.idx,
                           mean_trial_time := st.meanTrialTime,
                           is_fitted := true }
        if flg_new_iterator then
          .ok { result := none, callerAlgo := callerAlgo }
        else
          .ok { result := some (tunedAlgo2, b.idx), callerAlgo := callerAlgo }

end OptunaTuner

namespace OptunaTuner

/-- The durations of the first `k` trials. -/
def durTake (cfg : TunerCfg) (k : ℕ) : List ℚ :=
  (List.range k).map cfg.durations

/-- The records of the first `k` trials, in completion order. -/
def trialsTake (cfg : TunerCfg) (k : ℕ) : List TrialRec :=
  (List.range k).map (fun i => ⟨i, cfg.scores i, cfg.durations i⟩)

/-- Closed form of the estimate the `update_trial_time` callback writes
after the `k`-th completed trial: `min(n_trials, timeout // mean of the
first k durations)` — a floor division of the configured total timeout. -/
def estAfter (cfg : TunerCfg) (k : ℕ) : ℤ :=
  min (cfg.n_trials : ℤ) ⌊cfg.timeout / listMean (durTake cfg k)⌋

/-- The optimizer configuration that `fit` passes to `study.optimize`:
`n_trials` unchanged, `timeout` clamped by
`min(self.timeout, max(estimate_tuner_time(...), 1))` (optuna.py:135-137). -/
def fitCfg (timeout0 ett : ℚ) (n_trials : ℕ)
    (durations scores : ℕ → ℚ) : TunerCfg :=
  { n_trials := n_trials, timeout := min timeout0 (max ett 1),
    durations := durations, scores := scores }

/-- The optimize-loop state after `k` completed trials. -/
def canonState (cfg : TunerCfg) (k : ℕ) : OptState :=
  { elapsed := (durTake cfg k).sum
    records := trialsTake cfg k
    meanTrialTime := if k = 0 then none else some (listMean (durTake cfg k))
    estimatedNTrials := if k = 0 then (cfg.n_trials : ℤ) else estAfter cfg k
    estHistory := (List.range k).map (fun i => estAfter cfg (i + 1)) }

end OptunaTuner

/-! ## Concrete instantiations used by the closed theorems -/

/-- Scenario B configuration: `timeout = 5` time units, every trial
takes 2 units, `n_trials = 100`. -/
def cfgB : OptunaTuner.TunerCfg :=
  { n_trials := 100, timeout := 5, durations := fun _ => 2,
    scores := fun _ => 0 }

/-- C6 counterexample configuration: `timeout = 10`, the first trial
takes 9 units and later trials 1 unit each, `n_trials = 100`. -/
def cfgC6 : OptunaTuner.TunerCfg :=
  { n_trials := 100, timeout := 10,
    durations := fun k => if k = 0 then 9 else 1, scores := fun _ => 0 }

/-- An unfitted algorithm instance. -/
def algoU : OptunaTuner.MLAlgoR :=
  { is_fitted := false, params := none, mean_trial_time := none }

/-- The output of `fit` on `algoU` with one trial of score 1 and
duration 1, `fit_on_holdout = False`: the tuned copy carries the best
params and the mean trial time; the caller's object is untouched. -/
def outW : OptunaTuner.TunerFitOut :=
  { result := some ({ is_fitted := true, params := some 0,
                      mean_trial_time := some 1 }, 0),
    callerAlgo := algoU }

/-- An already-fitted algorithm instance, for the `assert` precondition. -/
def algoF : OptunaTuner.MLAlgoR :=
  { is_fitted := true, params := none, mean_trial_time := none }


/-- Base estimator instance for the concrete runs: `_infer_params`
builds it after popping `l1_ratios` from the params, so its `l1_ratio`
is the estimator class default (sklearn's `ElasticNet` default 0.5),
and it is unfitted. -/
def baseM : LinearL1CD.SkModel := { l1_ratio := mkRat 1 2, c := 0, coef := none }

/-- Solver capability for the C8 scenario: fits always succeed with a
mixed (neither all-zero nor all-nonzero) coefficient vector; the
validation scores per penalty strength are 0.5 for `C = 10` and 0.9
otherwise; the time limit is never exceeded. -/
def envC8 : LinearL1CD.SolverEnv :=
  { fitF := fun _ => .ok [1, 0],
    scoreF := fun m => if m.c = 10 then mkRat 1 2 else mkRat 9 10,
    supportsL1 := true, timer := fun _ => false }

/-- Solver capability for the C2 and C3 runs: fits always succeed with
a mixed coefficient vector and score 0. -/
def envC2 : LinearL1CD.SolverEnv :=
  { fitF := fun _ => .ok [1, 0], scoreF := fun _ => 0,
    supportsL1 := true, timer := fun _ => false }

/-- Solver capability where every fit is degenerate: all coefficients
collapse to zero on every cell; the timer never fires. -/
def envC4 : LinearL1CD.SolverEnv :=
  { fitF := fun _ => .ok [0], scoreF := fun _ => 0, supportsL1 := true,
    timer := fun _ => false }

/-- Solver capability for C5: the solver raises a numerical error at
penalty 2 only, and fits every other penalty successfully. -/
def envC5 : LinearL1CD.SolverEnv :=
  { fitF := fun m => if m.c = 2 then .error () else .ok [1, 0],
    scoreF := fun _ => 0, supportsL1 := true, timer := fun _ => false }

/-! ## Theorems -/

/-- A non-empty list whose elements are all `t` dedups to `[t]`. -/
theorem dedup_of_const {t : DKind} :
    ∀ l : List DKind, l ≠ [] → (∀ x ∈ l, x = t) → l.dedup = [t] := by
  intro l
  induction l with
  | nil => intro h; exact absurd rfl h
  | cons a rest ih =>
    intro _ hall
    have ha : a = t := hall a (List.mem_cons_self a rest)
    by_cases hrest : rest = []
    · subst ha; simp [hrest]
    · have hd : rest.dedup = [t] :=
        ih hrest (fun x hx => hall x (List.mem_cons_of_mem a hx))
      have hmem : a ∈ rest := by
        have ht2 : t ∈ rest.dedup := by rw [hd]; exact List.mem_singleton.mpr rfl
        rw [ha]
        exact List.mem_dedup.mp ht2
      rw [List.dedup_cons_of_mem hmem, hd]

/-- C10: for every non-empty sequence of datasets, `concatenate`
dispatches on the set of dataset types: a single common type uses that
type's concat, the exact mix `{NumpyDataset, CSRSparseDataset}` uses the
sparse concat, and any other mix raises `TypeError` with no
concatenation applied. -/
theorem c10_concatenate_dispatch (datasets : List DatasetR)
    (hne : datasets ≠ []) :
    (∀ t : DKind, (∀ d ∈ datasets, d.kind = t) →
      concatenate datasets = .ok (concatOf t, datasets)) ∧
    ((datasets.map (fun d => d.kind)).toFinset =
        ({DKind.numpy, DKind.csrSparse} : Finset DKind) →
      concatenate datasets = .ok (ConcatFn.csrConcat, datasets)) ∧
    ((datasets.map (fun d => d.kind)).dedup.length ≠ 1 →
      (datasets.map (fun d => d.kind)).toFinset ≠
        ({DKind.numpy, DKind.csrSparse} : Finset DKind) →
      concatenate datasets = .error ()) := by
  refine ⟨?_, ?_, ?_⟩
  · intro t ht
    have hmapne : datasets.map (fun d => d.kind) ≠ [] := by
      simpa [List.map_eq_nil_iff] using hne
    have hall : ∀ x ∈ datasets.map (fun d => d.kind), x = t := by
      intro x hx
      obtain ⟨d, hd, hxd⟩ := List.mem_map.mp hx
      rw [← hxd]; exact ht d hd
    have hd : (datasets.map (fun d => d.kind)).dedup = [t] :=
      dedup_of_const _ hmapne hall
    simp [concatenate, get_common_concat, hd]
  · intro hts
    rcases hdd : (datasets.map (fun d => d.kind)).dedup with _ | ⟨a, rest⟩
    · have hmap : datasets.map (fun d => d.kind) = [] :=
        (List.dedup_eq_nil _).mp hdd
      rw [hmap] at hts
      exact absurd hts (by decide)
    · cases rest with
      | nil =>
        have hn : DKind.numpy ∈ datasets.map (fun d => d.kind) := by
          rw [← List.mem_toFinset, hts]; simp
        have hc : DKind.csrSparse ∈ datasets.map (fun d => d.kind) := by
          rw [← List.mem_toFinset, hts]; simp
        have hn2 : DKind.numpy ∈ [a] := by rw [← hdd]; exact List.mem_dedup.mpr hn
        have hc2 : DKind.csrSparse ∈ [a] := by rw [← hdd]; exact List.mem_dedup.mpr hc
        simp at hn2 hc2
        exact absurd (hn2.trans hc2.symm) (by decide)
      | cons b rb =>
        have heq : (a :: b :: rb).toFinset =
            (datasets.map (fun d => d.kind)).toFinset := by
          rw [← hdd]
          exact List.toFinset.ext_iff.mpr (fun x => List.mem_dedup)
        simp [concatenate, get_common_concat, hdd, heq, hts]
  · intro hlen hts
    rcases hdd : (datasets.map (fun d => d.kind)).dedup with _ | ⟨a, rest⟩
    · have heq : ([] : List DKind).toFinset =
          (datasets.map (fun d => d.kind)).toFinset := by
        rw [← hdd]
        exact List.toFinset.ext_iff.mpr (fun x => List.mem_dedup)
      rw [← heq] at hts
      simp only [List.toFinset_nil] at hts
      simp [concatenate, get_common_concat, hdd, hts]
    · cases rest with
      | nil => rw [hdd] at hlen; simp at hlen
      | cons b rb =>
        have heq : (a :: b :: rb).toFinset =
            (datasets.map (fun d => d.kind)).toFinset := by
          rw [← hdd]
          exact List.toFinset.ext_iff.mpr (fun x => List.mem_dedup)
        rw [← heq] at hts
        simp only [List.toFinset_cons] at hts
        simp [concatenate, get_common_concat, hdd, hts]

/-- Witness for C10 at concrete inputs: two numpy datasets use the
numpy concat, a numpy + sparse mix uses the sparse concat, and a
numpy + pandas mix raises `TypeError`. -/
theorem c10_witness :
    concatenate [⟨DKind.numpy, 0⟩, ⟨DKind.numpy, 1⟩] =
      .ok (ConcatFn.numpyConcat, [⟨DKind.numpy, 0⟩, ⟨DKind.numpy, 1⟩]) ∧
    concatenate [⟨DKind.numpy, 0⟩, ⟨DKind.csrSparse, 1⟩] =
      .ok (ConcatFn.csrConcat, [⟨DKind.numpy, 0⟩, ⟨DKind.csrSparse, 1⟩]) ∧
    concatenate [⟨DKind.numpy, 0⟩, ⟨DKind.pandas, 1⟩] = .error () :=
  ⟨(c10_concatenate_dispatch _ (by decide)).1 DKind.numpy (by decide),
   (c10_concatenate_dispatch _ (by decide)).2.1 (by decide),
   (c10_concatenate_dispatch _ (by decide)).2.2 (by decide) (by decide)⟩

open LinearL1CD in
/-- C8: the per-outer-value best update uses non-strict `>=` — a score
equal to the current best replaces the best with the later cell and
resets the no-improvement counter — and in the concrete scenario with a
single outer value, penalties `[10, 1, 0.1]` and validation scores
`[0.5, 0.9, 0.9]`, the returned cell is the one at penalty `0.1`. -/
theorem c8_nonstrict_tie_break :
    (∀ (s : ℚ) (m : SkModel) (st : CDState), optGe s st.cBestScore = true →
      (selUpdate s m st).cBestScore = some s ∧
      (selUpdate s m st).cBestModel = some m ∧ (selUpdate s m st).es = 0) ∧
    (Except.map (fun st : PathState => st.bestModel.map (fun m : SkModel => m.c))
        (fit_predict_single_fold envC8 baseM [10, 1, mkRat 1 10] [1] 2) =
      .ok (some (mkRat 1 10))) := by
  constructor
  · intro s m st h
    simp [selUpdate, h]
  · decide

open LinearL1CD in
/-- Witness for C8: applying the non-strict update at a concrete tied
score replaces the best cell and resets the counter. -/
theorem c8_witness :
    (selUpdate (mkRat 9 10) { baseM with c := mkRat 1 10 }
        { model := baseM, cBestScore := some (mkRat 9 10),
          cBestModel := some { baseM with c := 1 }, es := 1, warnCount := 0,
          fitCalls := 2, timerCalls := 2, fitTrace := [] }).cBestModel =
      some { baseM with c := mkRat 1 10 } ∧
    (selUpdate (mkRat 9 10) { baseM with c := mkRat 1 10 }
        { model := baseM, cBestScore := some (mkRat 9 10),
          cBestModel := some { baseM with c := 1 }, es := 1, warnCount := 0,
          fitCalls := 2, timerCalls := 2, fitTrace := [] }).es = 0 :=
  ⟨(c8_nonstrict_tie_break.1 (mkRat 9 10) _ _ (by decide)).2.1,
   (c8_nonstrict_tie_break.1 (mkRat 9 10) _ _ (by decide)).2.2⟩

open LinearL1CD in
/-- C2 (code bug, evaluated at the failing input): with grid
`l1_ratios = [0.5, 0.2]`, `cs = [1]`, and an estimator supporting
`l1_ratio`, both fit calls are configured with `l1_ratio = 0.5` — the
base instance's default — because `model.set_params(l1_ratio=...)`
(linear_sklearn.py:187) is discarded by the `model = deepcopy(_model)`
on line 191; in particular the cell of outer value `0.2` is NOT fitted
with `0.2`, so its fitted state does not depend on its outer value. -/
theorem c2_outer_value_never_configured :
    Except.map (fun st : PathState => st.fitTrace)
        (fit_predict_single_fold envC2 baseM [1] [mkRat 1 2, mkRat 1 5] 2) =
      .ok [(mkRat 1 2, 1), (mkRat 1 2, 1)] ∧ (mkRat 1 5 ≠ mkRat 1 2) := by
  decide

open LinearL1CD in
/-- C3 counterexample: the empty penalty grid `cs = []` neither raises
(`.ok`, and no `ConfigurationError` exists anywhere in the source) nor
calls the solver (`fitCalls = 0`); the search silently returns the
`None` best model. -/
theorem c3_counterexample :
    fit_predict_single_fold envC2 baseM [] [1] 2 =
      .ok { bestScore := none, bestModel := none, warnCount := 0,
            fitCalls := 0, timerCalls := 1, fitTrace := [] } := by
  decide

open LinearL1CD in
/-- With an empty `cs`, the outer loop never fits, warns, or records a
best, whatever the outer values: the inner loop body is never entered
and only the timer is consulted. -/
theorem outerLoop_nil_cs (env : SolverEnv) (base : SkModel) (es : ℕ) :
    ∀ (l : List ℚ) (st : PathState), st.bestScore = none →
      st.bestModel = none →
      ∃ tc, outerLoop env base [] es l st =
        .ok { bestScore := none, bestModel := none,
              warnCount := st.warnCount, fitCalls := st.fitCalls,
              timerCalls := tc, fitTrace := st.fitTrace } := by
  intro l
  induction l with
  | nil =>
    intro st h1 h2
    refine ⟨st.timerCalls, ?_⟩
    cases st
    simp only at h1 h2
    subst h1
    subst h2
    rfl
  | cons r rest ih =>
    intro st h1 h2
    rw [outerLoop]
    simp only [innerLoop, List.length_nil]
    rw [h1]
    simp only [optGeOpt]
    cases htm : env.timer st.timerCalls with
    | true =>
      refine ⟨st.timerCalls + 1, ?_⟩
      simp [htm]
    | false =>
      simp only [htm, Bool.false_eq_true, if_false, if_true]
      exact ih _ rfl rfl

open LinearL1CD in
/-- C3 amended: an empty penalty grid is not validated — the search
performs zero solver calls, emits no warning, raises nothing, and
returns the `None` (dummy) best model. -/
theorem c3_empty_grid_silent (env : SolverEnv) (base : SkModel)
    (l1_ratios : List ℚ) (es : ℕ) :
    ∃ st, fit_predict_single_fold env base [] l1_ratios es = .ok st ∧
      st.fitCalls = 0 ∧ st.bestModel = none ∧ st.warnCount = 0 := by
  obtain ⟨tc, h⟩ := outerLoop_nil_cs env base es
    (l1_ratios.insertionSort (fun a b => b ≤ a))
    { bestScore := none, bestModel := none, warnCount := 0, fitCalls := 0,
      timerCalls := 0, fitTrace := [] } rfl rfl
  rw [fit_predict_single_fold]
  exact ⟨_, h, rfl, rfl, rfl⟩

open LinearL1CD in
/-- A non-empty all-zero coefficient vector is not all-nonzero. -/
theorem all_zero_not_all_nonzero {zs : List ℚ}
    (hz : zs.all (fun x => x == 0) = true) (hzne : zs ≠ []) :
    zs.all (fun x => !(x == 0)) = false := by
  cases zs with
  | nil => exact absurd rfl hzne
  | cons z rest =>
    have h1 : (z == 0) = true :=
      List.all_eq_true.mp hz z (List.mem_cons_self z rest)
    simp [List.all_cons, h1]

open LinearL1CD in
/-- When every fit returns the same non-empty all-zero coefficient
vector and the timer never fires, the inner loop skips every cell but
the last, warns exactly once (on the last cell), and — because the
degenerate-last-cell branch falls through to scoring — records the
all-zero model as the per-outer best. -/
theorem innerLoop_all_zero (env : SolverEnv) (es0 : ℕ) (zs : List ℚ)
    (csLen : ℕ)
    (hfit : ∀ m, env.fitF m = .ok zs)
    (hz : zs.all (fun x => x == 0) = true) (hzne : zs ≠ [])
    (htimer : ∀ k, env.timer k = false) :
    ∀ (cs : List ℚ) (n : ℕ) (ist : CDState), cs ≠ [] →
      n + cs.length = csLen → ist.cBestScore = none →
      ∃ tc,
        innerLoop env es0 csLen cs n ist = .ok
          { model := { l1_ratio := ist.model.l1_ratio, c := cs.getLastD 0,
                       coef := some zs },
            cBestScore := some (env.scoreF
              { l1_ratio := ist.model.l1_ratio, c := cs.getLastD 0,
                coef := some zs }),
            cBestModel := some { l1_ratio := ist.model.l1_ratio,
                                 c := cs.getLastD 0, coef := some zs },
            es := 0, warnCount := ist.warnCount + 1,
            fitCalls := ist.fitCalls + cs.length, timerCalls := tc,
            fitTrace := ist.fitTrace ++
              cs.map (fun c => (ist.model.l1_ratio, c)) } := by
  intro cs
  induction cs with
  | nil => intro n ist hne; exact absurd rfl hne
  | cons c tail ih =>
    intro n ist _ hlen hbest
    cases tail with
    | nil =>
      have hn : (n == csLen - 1) = true := by
        simp only [List.length_cons, List.length_nil] at hlen
        simp only [beq_iff_eq]
        omega
      simp only [innerLoop, hfit, hz, hn, Bool.not_true, Bool.and_false,
        Bool.false_eq_true, if_false, if_true]
      rw [selUpdate]
      simp only [hbest, optGe, if_true]
      by_cases hes : es0 ≤ 0
      · refine ⟨ist.timerCalls, ?_⟩
        rw [if_pos hes]
        simp
      · rw [if_neg hes, htimer]
        rw [all_zero_not_all_nonzero hz hzne]
        refine ⟨ist.timerCalls + 1, ?_⟩
        simp [innerLoop]
    | cons c2 rest =>
      have hn : (n == csLen - 1) = false := by
        simp only [List.length_cons] at hlen
        simp only [beq_eq_false_iff_ne, ne_eq]
        omega
      rw [innerLoop]
      simp only [hfit, hz, hn, Bool.not_false, Bool.and_true, if_true]
      obtain ⟨tc, heq⟩ := ih (n + 1)
        { model := { l1_ratio := ist.model.l1_ratio, c := c, coef := some zs },
          cBestScore := ist.cBestScore, cBestModel := ist.cBestModel,
          es := ist.es, warnCount := ist.warnCount,
          fitCalls := ist.fitCalls + 1, timerCalls := ist.timerCalls,
          fitTrace := ist.fitTrace ++ [(ist.model.l1_ratio, c)] }
        (by simp) (by simp only [List.length_cons] at hlen ⊢; omega) hbest
      refine ⟨tc, Eq.trans ?_ (Eq.trans heq ?_)⟩
      · rfl
      · simp [List.getLastD_cons, List.append_assoc]
        omega

open LinearL1CD in
/-- With all-degenerate fits, each outer iteration contributes exactly
one warning, and the global best update installs the all-zero model of
the last penalty, whatever the incoming best. -/
theorem outerLoop_all_zero (env : SolverEnv) (base : SkModel) (es0 : ℕ)
    (zs : List ℚ) (cs : List ℚ)
    (hfit : ∀ m, env.fitF m = .ok zs)
    (hz : zs.all (fun x => x == 0) = true) (hzne : zs ≠ [])
    (htimer : ∀ k, env.timer k = false) (hcs : cs ≠ []) :
    ∀ (l : List ℚ) (st : PathState),
      ((st.bestScore = none ∧ st.bestModel = none) ∨
        (st.bestScore =
            some (env.scoreF ⟨base.l1_ratio, cs.getLastD 0, some zs⟩) ∧
          st.bestModel = some ⟨base.l1_ratio, cs.getLastD 0, some zs⟩)) →
      ∃ st2, outerLoop env base cs es0 l st = .ok st2 ∧
        st2.warnCount = st.warnCount + l.length ∧
        (l = [] → st2.bestModel = st.bestModel) ∧
        (l ≠ [] → st2.bestModel =
          some ⟨base.l1_ratio, cs.getLastD 0, some zs⟩) := by
  intro l
  induction l with
  | nil =>
    intro st _
    exact ⟨st, rfl, by simp, fun _ => rfl, fun h => absurd rfl h⟩
  | cons r rest ih =>
    intro st hdisj
    rw [outerLoop]
    obtain ⟨tc, heq⟩ := innerLoop_all_zero env es0 zs cs.length hfit hz hzne
      htimer cs 0
      { model := base, cBestScore := none, cBestModel := none, es := 0,
        warnCount := st.warnCount, fitCalls := st.fitCalls,
        timerCalls := st.timerCalls, fitTrace := st.fitTrace }
      hcs (by simp) rfl
    rw [heq]
    have hge : optGeOpt
        (some (env.scoreF ⟨base.l1_ratio, cs.getLastD 0, some zs⟩))
        st.bestScore = true := by
      rcases hdisj with ⟨h1, _⟩ | ⟨h1, _⟩ <;> rw [h1] <;> simp [optGeOpt]
    simp only [hge, if_true, htimer, Bool.false_eq_true, if_false]
    obtain ⟨st2, heq2, hw, _, hne⟩ := ih
      { bestScore :=
          some (env.scoreF ⟨base.l1_ratio, cs.getLastD 0, some zs⟩),
        bestModel := some ⟨base.l1_ratio, cs.getLastD 0, some zs⟩,
        warnCount := st.warnCount + 1, fitCalls := st.fitCalls + cs.length,
        timerCalls := tc + 1,
        fitTrace := st.fitTrace ++ cs.map (fun c => (base.l1_ratio, c)) }
      (Or.inr ⟨rfl, rfl⟩)
    refine ⟨st2, Eq.trans ?_ heq2, ?_, ?_, ?_⟩
    · rfl
    · rw [hw]
      simp only [List.length_cons]
      omega
    · intro h; exact absurd h (by simp)
    · intro _
      cases rest with
      | nil =>
        obtain ⟨stn, heqn, _, hniln, _⟩ := ih
          { bestScore :=
              some (env.scoreF ⟨base.l1_ratio, cs.getLastD 0, some zs⟩),
            bestModel := some ⟨base.l1_ratio, cs.getLastD 0, some zs⟩,
            warnCount := st.warnCount + 1,
            fitCalls := st.fitCalls + cs.length, timerCalls := tc + 1,
            fitTrace := st.fitTrace ++ cs.map (fun c => (base.l1_ratio, c)) }
          (Or.inr ⟨rfl, rfl⟩)
        rw [heq2] at heqn
        cases heqn
        exact hniln rfl
      | cons r2 rest2 => exact hne (by simp)

open LinearL1CD in
/-- C4 counterexample: with two outer values and every cell degenerate,
the run emits TWO `warnings.warn` calls — one per outer value, from
inside the `l1_ratio` loop — not exactly one for the whole run. -/
theorem c4_counterexample :
    Except.map (fun st : PathState => st.warnCount)
        (fit_predict_single_fold envC4 baseM [1, 2] [1, mkRat 1 2] 2) =
      .ok 2 ∧ (2 : ℕ) ≠ 1 := by
  decide

open LinearL1CD in
/-- C4 amended: when every cell yields all-zero coefficients (and the
time limit never fires), the search returns `.ok` (never raises), the
global best is the all-zero model of the last penalty — the degenerate
last cell falls through to scoring and wins over `-inf` — and exactly
one warning is emitted PER OUTER VALUE, i.e. `l1_ratios.length` in
total, not one for the whole run. -/
theorem c4_all_degenerate (env : SolverEnv) (base : SkModel)
    (cs l1_ratios : List ℚ) (es0 : ℕ) (zs : List ℚ)
    (hfit : ∀ m, env.fitF m = .ok zs)
    (hz : zs.all (fun x => x == 0) = true) (hzne : zs ≠ [])
    (htimer : ∀ k, env.timer k = false)
    (hcs : cs ≠ []) (hl1 : l1_ratios ≠ []) :
    ∃ st, fit_predict_single_fold env base cs l1_ratios es0 = .ok st ∧
      st.warnCount = l1_ratios.length ∧
      st.bestModel = some ⟨base.l1_ratio, cs.getLastD 0, some zs⟩ := by
  have hsne : l1_ratios.insertionSort (fun a b => b ≤ a) ≠ [] := by
    intro h
    have hlen := List.length_insertionSort (fun a b => b ≤ a) l1_ratios
    rw [h] at hlen
    exact hl1 (List.length_eq_zero.mp hlen.symm)
  obtain ⟨st2, heq, hw, _, hne⟩ := outerLoop_all_zero env base es0 zs cs
    hfit hz hzne htimer hcs
    (l1_ratios.insertionSort (fun a b => b ≤ a))
    { bestScore := none, bestModel := none, warnCount := 0, fitCalls := 0,
      timerCalls := 0, fitTrace := [] } (Or.inl ⟨rfl, rfl⟩)
  refine ⟨st2, ?_, ?_, hne hsne⟩
  · rw [fit_predict_single_fold]
    exact heq
  · rw [hw]
    simp [List.length_insertionSort]

open LinearL1CD in
/-- Witness for C4 at concrete inputs: grid `cs = [1, 2]`,
`l1_ratios = [1, 0.5]`, all-zero fits — the search succeeds with two
warnings and the all-zero model at the last penalty. -/
theorem c4_witness :
    ∃ st : PathState,
      fit_predict_single_fold envC4 baseM [1, 2] [1, mkRat 1 2] 2 =
        .ok st ∧
      st.warnCount = ([1, mkRat 1 2] : List ℚ).length ∧
      st.bestModel =
        some ⟨baseM.l1_ratio, ([1, 2] : List ℚ).getLastD 0, some [0]⟩ :=
  c4_all_degenerate envC4 baseM [1, 2] [1, mkRat 1 2] 2 [0]
    (fun _ => rfl) (by decide) (by decide) (fun _ => rfl)
    (by decide) (by decide)

open LinearL1CD in
/-- C5 counterexample: on grid `cs = [1, 2, 3]` the solver fits cells 1
and 3 fine and errors only on cell 2, yet the whole search aborts with
the solver's error — the failing cell is not skipped and the loop does
not continue, even though other cells in the grid succeed. -/
theorem c5_counterexample :
    fit_predict_single_fold envC5 baseM [1, 2, 3] [1] 2 = .error () ∧
    envC5.fitF { l1_ratio := baseM.l1_ratio, c := 1, coef := none } =
      .ok [1, 0] ∧
    envC5.fitF { l1_ratio := baseM.l1_ratio, c := 3, coef := none } =
      .ok [1, 0] := by
  decide

open LinearL1CD in
/-- C5 amended: `model.fit` is not wrapped in any try/except, so a
solver error on a reached grid cell propagates immediately out of
`fit_predict_single_fold` — here, an error on the very first cell
aborts the whole search with that error; no cell is skipped and no
`FitError` wrapper exists. -/
theorem c5_fit_error_propagates (env : SolverEnv) (base : SkModel)
    (c0 : ℚ) (cs : List ℚ) (r : ℚ) (es0 : ℕ)
    (herr : env.fitF { l1_ratio := base.l1_ratio, c := c0,
                       coef := base.coef } = .error ()) :
    fit_predict_single_fold env base (c0 :: cs) [r] es0 = .error () := by
  rw [fit_predict_single_fold]
  have hs : ([r] : List ℚ).insertionSort (fun a b => b ≤ a) = [r] := rfl
  rw [hs, outerLoop, innerLoop]
  simp only [herr]

open LinearL1CD in
/-- Witness for C5: a concrete solver that errors on the first penalty
makes the whole search return that error. -/
theorem c5_witness :
    fit_predict_single_fold envC5 baseM [2, 3] [1] 2 = .error () :=
  c5_fit_error_propagates envC5 baseM 2 [3] 1 2 (by decide)

open OptunaTuner in
/-- Durations of the first `k + 1` trials, split at the last. -/
theorem durTake_succ (cfg : TunerCfg) (k : ℕ) :
    durTake cfg (k + 1) = durTake cfg k ++ [cfg.durations k] := by
  simp [durTake, List.range_succ]

open OptunaTuner in
/-- Records of the first `k + 1` trials, split at the last. -/
theorem trialsTake_succ (cfg : TunerCfg) (k : ℕ) :
    trialsTake cfg (k + 1) =
      trialsTake cfg k ++ [⟨k, cfg.scores k, cfg.durations k⟩] := by
  simp [trialsTake, List.range_succ]

open OptunaTuner in
/-- `k` trials have been recorded after `k` trials. -/
theorem length_trialsTake (cfg : TunerCfg) (k : ℕ) :
    (trialsTake cfg k).length = k := by
  simp [trialsTake]

open OptunaTuner in
/-- The `duration` column of the trials dataframe. -/
theorem map_duration_trialsTake (cfg : TunerCfg) (k : ℕ) :
    (trialsTake cfg k).map (fun r => r.duration) = durTake cfg k := by
  simp [trialsTake, durTake, List.map_map]

open OptunaTuner in
/-- One step of the optimize loop from the canonical `k`-trial state:
either the timeout already stops it, or it runs trial `k` and the
callback produces exactly the canonical `k + 1`-trial state. -/
theorem optimizeLoop_canon_step (cfg : TunerCfg) (fuel k : ℕ) :
    optimizeLoop cfg (fuel + 1) (canonState cfg k) =
      if cfg.timeout < (durTake cfg k).sum then canonState cfg k
      else optimizeLoop cfg fuel (canonState cfg (k + 1)) := by
  rw [optimizeLoop]
  rw [show (canonState cfg k).elapsed = (durTake cfg k).sum from rfl]
  by_cases h : cfg.timeout < (durTake cfg k).sum
  · rw [if_pos h, if_pos h]
  · rw [if_neg h, if_neg h]
    rw [show (canonState cfg k).records = trialsTake cfg k from rfl]
    rw [length_trialsTake]
    simp only [update_trial_time]
    simp [canonState, trialsTake_succ, durTake_succ, estAfter,
      map_duration_trialsTake, List.range_succ]

open OptunaTuner in
/-- Every optimize run starting from a canonical state ends in a
canonical state; the trial count grows by at most the fuel (`n_trials`
budget), and stopping before the fuel runs out means the timeout was
strictly exceeded. -/
theorem optimizeLoop_canon_bound (cfg : TunerCfg) :
    ∀ (fuel k : ℕ), ∃ m, k ≤ m ∧ m ≤ k + fuel ∧
      optimizeLoop cfg fuel (canonState cfg k) = canonState cfg m ∧
      (m < k + fuel → cfg.timeout < (durTake cfg m).sum) := by
  intro fuel
  induction fuel with
  | zero =>
    intro k
    exact ⟨k, le_rfl, by omega, rfl, fun h => absurd h (by omega)⟩
  | succ fuel ih =>
    intro k
    rw [optimizeLoop_canon_step]
    by_cases h : cfg.timeout < (durTake cfg k).sum
    · rw [if_pos h]
      exact ⟨k, le_rfl, by omega, rfl, fun _ => h⟩
    · rw [if_neg h]
      obtain ⟨m, h1, h2, h3, h4⟩ := ih (k + 1)
      exact ⟨m, by omega, by omega, h3, fun hlt => h4 (by omega)⟩

open OptunaTuner in
/-- A whole `study.optimize` run ends in the canonical state of some
trial count bounded by `n_trials`; fewer trials than `n_trials` means
the run stopped on the timeout. -/
theorem runOptimize_canon (cfg : TunerCfg) :
    ∃ m, m ≤ cfg.n_trials ∧ runOptimize cfg = canonState cfg m ∧
      (m < cfg.n_trials → cfg.timeout < (durTake cfg m).sum) := by
  obtain ⟨m, _, h2, h3, h4⟩ := optimizeLoop_canon_bound cfg cfg.n_trials 0
  refine ⟨m, by omega, ?_, fun h => h4 (by omega)⟩
  rw [runOptimize]
  have hinit : ({ elapsed := 0, records := [], meanTrialTime := none,
                  estimatedNTrials := (cfg.n_trials : ℤ),
                  estHistory := [] } : OptState) = canonState cfg 0 := rfl
  rw [hinit]
  exact h3

open OptunaTuner in
/-- C1 amended: after every completed trial (the `i + 1`-st, for every
`i` below the number of trials run), the callback recomputes the mean
duration over ALL trials so far and sets `estimated_n_trials =
min(n_trials, ⌊timeout / mean(d₁..dᵢ₊₁)⌋)` — a floor division of the
CONFIGURED TOTAL timeout, capped by `n_trials`, not of the time still
remaining in the budget. -/
theorem c1_estimate_uses_total_timeout (cfg : TunerCfg) :
    (runOptimize cfg).estHistory =
      (List.range (runOptimize cfg).records.length).map
        (fun i => min (cfg.n_trials : ℤ)
          ⌊cfg.timeout /
            listMean ((List.range (i + 1)).map cfg.durations)⌋) := by
  obtain ⟨m, _, hm, _⟩ := runOptimize_canon cfg
  rw [hm]
  rw [show (canonState cfg m).records = trialsTake cfg m from rfl,
      length_trialsTake]
  rfl

open OptunaTuner in
/-- C1 counterexample: timeout 5, two completed trials of duration 2
each (configuration `cfgB`).  After trial 2 the code holds estimate
`min(100, ⌊5/2⌋) = 2`, but the remaining budget is `5 - 4 = 1`, so
`⌊remaining/mean⌋ = 0 ≠ 2`: the estimate is not computed from the time
still remaining. -/
theorem c1_counterexample :
    (runOptimize cfgB).estHistory.get? 1 = some 2 ∧
    (durTake cfgB 2).sum = 4 ∧
    ⌊(cfgB.timeout - (durTake cfgB 2).sum) / listMean (durTake cfgB 2)⌋ =
      (0 : ℤ) ∧
    (2 : ℤ) ≠ 0 := by
  with_unfolding_all decide

open OptunaTuner in
/-- C6 amended: the optimize loop stops exactly on its two configured
bounds — it never runs more than `n_trials` trials, and if it ran fewer
the timeout was strictly exceeded; the recomputed
`estimated_n_trials` never bounds the loop.  In scenario B
(timeout 5, all durations 2, `n_trials = 100`) exactly 3 trials run —
so "at most 3" holds — with the estimate 2 in place after trial 1. -/
theorem c6_stop_rule (cfg : TunerCfg) :
    ((runOptimize cfg).records.length ≤ cfg.n_trials ∧
      ((runOptimize cfg).records.length < cfg.n_trials →
        cfg.timeout < (runOptimize cfg).elapsed)) ∧
    (runOptimize cfgB).records.length = 3 ∧
    (runOptimize cfgB).estHistory.get? 0 = some 2 := by
  refine ⟨?_, by with_unfolding_all decide, by with_unfolding_all decide⟩
  obtain ⟨m, h1, hm, h4⟩ := runOptimize_canon cfg
  rw [hm]
  rw [show (canonState cfg m).records = trialsTake cfg m from rfl,
      length_trialsTake]
  rw [show (canonState cfg m).elapsed = (durTake cfg m).sum from rfl]
  exact ⟨h1, h4⟩

open OptunaTuner in
/-- Witness for C6: in scenario B the loop stopped short of `n_trials`
because the timeout was strictly exceeded. -/
theorem c6_witness : cfgB.timeout < (runOptimize cfgB).elapsed :=
  (c6_stop_rule cfgB).1.2 (by with_unfolding_all decide)

open OptunaTuner in
/-- C6 counterexample: configuration `cfgC6` (timeout 10, first trial 9
units then 1 unit each, `n_trials = 100`).  After trial 1 the estimate
is 1, so `trials_run = 1 ≥ min(n_trials_max, estimated) = 1` — the
claimed stop condition holds — yet the loop goes on to run 3 trials:
`estimated_affordable_trials` does not stop the scheduler. -/
theorem c6_counterexample :
    (runOptimize cfgC6).records.length = 3 ∧
    (runOptimize cfgC6).estHistory.get? 0 = some 1 ∧
    min (cfgC6.n_trials : ℤ) 1 ≤ (1 : ℤ) ∧ (1 : ℕ) < 3 := by
  with_unfolding_all decide

open OptunaTuner in
/-- Every recorded trial's index is below the trial count. -/
theorem idx_lt_of_mem_trialsTake {cfg : TunerCfg} {k : ℕ} {r : TrialRec}
    (h : r ∈ trialsTake cfg k) : r.idx < k := by
  rw [trialsTake] at h
  obtain ⟨i, hi, hr⟩ := List.mem_map.mp h
  rw [← hr]
  exact List.mem_range.mp hi

open OptunaTuner in
/-- `study.best_params` on a non-empty canonical trial list: it is some
recorded trial whose score is maximal, and among equal scores the
earliest (lowest-index) trial wins — Python's `max` keeps the first
maximum. -/
theorem bestTrial_trialsTake (cfg : TunerCfg) :
    ∀ k : ℕ, k ≠ 0 →
      ∃ b, bestTrial (trialsTake cfg k) = some b ∧
        b ∈ trialsTake cfg k ∧
        (∀ r ∈ trialsTake cfg k, r.score ≤ b.score) ∧
        (∀ r ∈ trialsTake cfg k, r.score = b.score → b.idx ≤ r.idx) := by
  intro k
  induction k with
  | zero => intro h; exact absurd rfl h
  | succ k ih =>
    intro _
    rw [trialsTake_succ, bestTrial, List.foldl_append]
    rw [show List.foldl _ none (trialsTake cfg k) = bestTrial (trialsTake cfg k) from rfl]
    by_cases hk : k = 0
    · subst hk
      refine ⟨⟨0, cfg.scores 0, cfg.durations 0⟩, ?_, ?_, ?_, ?_⟩
      · rfl
      · simp
      · intro r hr
        simp only [trialsTake, List.range_zero, List.map_nil,
          List.nil_append, List.mem_singleton] at hr
        rw [hr]
      · intro r hr _
        simp only [trialsTake, List.range_zero, List.map_nil,
          List.nil_append, List.mem_singleton] at hr
        rw [hr]
    · obtain ⟨b, hbt, hmem, hmax, htie⟩ := ih hk
      rw [hbt]
      simp only [List.foldl_cons, List.foldl_nil]
      by_cases hlt : b.score < cfg.scores k
      · rw [if_pos hlt]
        refine ⟨⟨k, cfg.scores k, cfg.durations k⟩, rfl, ?_, ?_, ?_⟩
        · exact List.mem_append.mpr (Or.inr (List.mem_singleton.mpr rfl))
        · intro r hr
          rcases List.mem_append.mp hr with h1 | h1
          · exact le_of_lt (lt_of_le_of_lt (hmax r h1) hlt)
          · rw [List.mem_singleton.mp h1]
        · intro r hr hsc
          rcases List.mem_append.mp hr with h1 | h1
          · exact absurd hsc (by
              have := lt_of_le_of_lt (hmax r h1) hlt
              exact ne_of_lt this)
          · rw [List.mem_singleton.mp h1]
      · rw [if_neg hlt]
        refine ⟨b, rfl, List.mem_append.mpr (Or.inl hmem), ?_, ?_⟩
        · intro r hr
          rcases List.mem_append.mp hr with h1 | h1
          · exact hmax r h1
          · rw [List.mem_singleton.mp h1]
            exact le_of_not_lt hlt
        · intro r hr hsc
          rcases List.mem_append.mp hr with h1 | h1
          · exact htie r h1 hsc
          · rw [List.mem_singleton.mp h1]
            exact le_of_lt (idx_lt_of_mem_trialsTake hmem)

open OptunaTuner in
/-- The canonical trial list is empty only for zero trials. -/
theorem trialsTake_eq_nil_iff (cfg : TunerCfg) (k : ℕ) :
    trialsTake cfg k = [] ↔ k = 0 := by
  rw [trialsTake]
  simp [List.map_eq_nil_iff, List.range_eq_nil]

open OptunaTuner in
/-- C7 amended: with an unfitted algorithm, `fit` returns the
`(None, None)` outcome when an `OptunaError` is raised, AND ALSO — even
with completed trials and no error — whenever the iterator was
converted to a holdout one (`fit_on_holdout` and a non-holdout
iterator); with zero completed trials it raises an uncaught
`ValueError` from `study.best_params` instead of returning `NoResult`;
in the remaining case it returns the refit copy whose params come from
the completed trial with the highest score, earliest on ties. -/
theorem c7_fit_outcomes (timeout0 : ℚ) (n_trials : ℕ) (foh : Bool)
    (durations scores : ℕ → ℚ) (oraises : Bool) (algo : MLAlgoR)
    (ett : ℚ) (iter : IterKind)
    (halgo : algo.is_fitted = false) :
    (oraises = true →
      OptunaTuner.fit timeout0 n_trials foh durations scores oraises
          algo ett iter =
        .ok { result := none, callerAlgo := algo }) ∧
    (oraises = false →
      (runOptimize (fitCfg timeout0 ett n_trials durations scores)).records
          = [] →
      OptunaTuner.fit timeout0 n_trials foh durations scores oraises
          algo ett iter = .error PyErr.valueError) ∧
    (oraises = false →
      (runOptimize (fitCfg timeout0 ett n_trials durations scores)).records
          ≠ [] →
      (foh && !(iter == IterKind.holdout)) = true →
      OptunaTuner.fit timeout0 n_trials foh durations scores oraises
          algo ett iter =
        .ok { result := none, callerAlgo := algo }) ∧
    (oraises = false →
      (runOptimize (fitCfg timeout0 ett n_trials durations scores)).records
          ≠ [] →
      (foh && !(iter == IterKind.holdout)) = false →
      ∃ b, bestTrial
          (runOptimize (fitCfg timeout0 ett n_trials durations scores)).records
          = some b ∧
        OptunaTuner.fit timeout0 n_trials foh durations scores oraises
            algo ett iter =
          .ok { result := some ({ algo with params := some b.idx, mean_trial_time := (runOptimize (fitCfg timeout0 ett n_trials durations scores)).meanTrialTime, is_fitted := true }, b.idx), callerAlgo := algo } ∧
        b ∈ (runOptimize (fitCfg timeout0 ett n_trials durations
          scores)).records ∧
        (∀ r ∈ (runOptimize (fitCfg timeout0 ett n_trials durations
          scores)).records, r.score ≤ b.score) ∧
        (∀ r ∈ (runOptimize (fitCfg timeout0 ett n_trials durations
          scores)).records, r.score = b.score → b.idx ≤ r.idx)) := by
  have hcfg : ({ n_trials := n_trials, timeout := min timeout0 (max ett 1), durations := durations, scores := scores } : TunerCfg) = fitCfg timeout0 ett n_trials durations scores := rfl
  refine ⟨?_, ?_, ?_, ?_⟩
  · intro ho
    simp only [OptunaTuner.fit, halgo, ho]
    simp
  · intro ho hrec
    simp only [OptunaTuner.fit, halgo, ho, hcfg, hrec]
    simp [bestTrial]
  · intro ho hrec hflg
    obtain ⟨m, _, hm, _⟩ :=
      runOptimize_canon (fitCfg timeout0 ett n_trials durations scores)
    rw [hm] at hrec
    rw [show (canonState (fitCfg timeout0 ett n_trials durations scores) m).records
        = trialsTake (fitCfg timeout0 ett n_trials durations scores) m
        from rfl] at hrec
    have hm0 : m ≠ 0 := by
      intro h0
      exact hrec (by rw [h0]; rfl)
    obtain ⟨b, hbt, _, _, _⟩ :=
      bestTrial_trialsTake (fitCfg timeout0 ett n_trials durations scores)
        m hm0
    simp only [OptunaTuner.fit, halgo, ho, hcfg, hm]
    rw [show (canonState (fitCfg timeout0 ett n_trials durations scores) m).records
        = trialsTake (fitCfg timeout0 ett n_trials durations scores) m
        from rfl, hbt]
    simp [hflg]
  · intro ho hrec hflg
    obtain ⟨m, _, hm, _⟩ :=
      runOptimize_canon (fitCfg timeout0 ett n_trials durations scores)
    rw [hm] at hrec ⊢
    rw [show (canonState (fitCfg timeout0 ett n_trials durations scores) m).records
        = trialsTake (fitCfg timeout0 ett n_trials durations scores) m
        from rfl] at hrec ⊢
    have hm0 : m ≠ 0 := by
      intro h0
      exact hrec (by rw [h0]; rfl)
    obtain ⟨b, hbt, hmem, hmax, htie⟩ :=
      bestTrial_trialsTake (fitCfg timeout0 ett n_trials durations scores)
        m hm0
    refine ⟨b, hbt, ?_, hmem, hmax, htie⟩
    simp only [OptunaTuner.fit, halgo, ho, hcfg, hm]
    rw [show (canonState (fitCfg timeout0 ett n_trials durations scores) m).records
        = trialsTake (fitCfg timeout0 ett n_trials durations scores) m
        from rfl, hbt]
    simp [hflg]

open OptunaTuner in
/-- Witness for C7: an `OptunaError` makes `fit` return the
`(None, None)` outcome with the caller's object untouched. -/
theorem c7_witness :
    OptunaTuner.fit 10 1 false (fun _ => 1) (fun _ => 1) true algoU 10
        IterKind.cv =
      .ok { result := none, callerAlgo := algoU } :=
  (c7_fit_outcomes 10 1 false (fun _ => 1) (fun _ => 1) true algoU 10
    IterKind.cv rfl).1 rfl

open OptunaTuner in
/-- C7 counterexample: `fit_on_holdout = True` with a plain CV iterator
— one trial completes successfully, no optuna error is raised, and yet
`fit` returns the `(None, None)` outcome, contradicting "NoResult
exactly when the strategy errors or zero trials completed". -/
theorem c7_counterexample :
    OptunaTuner.fit 10 1 true (fun _ => 1) (fun _ => 1) false algoU 10
        IterKind.cv =
      .ok { result := none, callerAlgo := algoU } ∧
    (runOptimize (fitCfg 10 10 1 (fun _ => 1) (fun _ => 1))).records.length
      = 1 := by
  with_unfolding_all decide

open OptunaTuner in
/-- C9: `fit` rejects an already-fitted algorithm via the `assert` at
optuna.py:131, and never mutates the caller's algorithm object —
`ml_algo = deepcopy(ml_algo)` (optuna.py:138) rebinds the local name to
the copy before any write (`mean_trial_time` in the callback, `params`,
the refit), so on every successful return the caller's object is
exactly the object passed in, params and unfitted state included. -/
theorem c9_fit_preserves_caller (timeout0 : ℚ) (n_trials : ℕ)
    (foh : Bool) (durations scores : ℕ → ℚ) (oraises : Bool)
    (algo : MLAlgoR) (ett : ℚ) (iter : IterKind) :
    (algo.is_fitted = true →
      OptunaTuner.fit timeout0 n_trials foh durations scores oraises
          algo ett iter = .error PyErr.assertionError) ∧
    (∀ out, OptunaTuner.fit timeout0 n_trials foh durations scores
        oraises algo ett iter = .ok out → out.callerAlgo = algo) := by
  constructor
  · intro h
    simp only [OptunaTuner.fit, h]
    simp
  · intro out hout
    simp only [OptunaTuner.fit] at hout
    cases hf : algo.is_fitted with
    | true =>
      rw [hf] at hout
      simp at hout
    | false =>
      rw [hf] at hout
      simp only [Bool.false_eq_true, if_false] at hout
      split at hout
      · injection hout with h
        rw [← h]
      · split at hout
        · simp at hout
        · split at hout
          · injection hout with h
            rw [← h]
          · injection hout with h
            rw [← h]

open OptunaTuner in
/-- Witness for C9: a fitted algorithm is rejected by the assertion,
and on a successful concrete run the caller's object comes back
unchanged. -/
theorem c9_witness :
    OptunaTuner.fit 10 1 false (fun _ => 1) (fun _ => 1) false algoF 10
        IterKind.cv = .error PyErr.assertionError ∧
    outW.callerAlgo = algoU :=
  ⟨(c9_fit_preserves_caller 10 1 false (fun _ => 1) (fun _ => 1) false
      algoF 10 IterKind.cv).1 rfl,
   (c9_fit_preserves_caller 10 1 false (fun _ => 1) (fun _ => 1) false
      algoU 10 IterKind.cv).2 outW (by with_unfolding_all decide)⟩
